import Mathlib

/-!
Verification of the mcp-mobile MCP client core (packages/mcp-core) against its
specification.  The TypeScript source is shallowly embedded: each mutable class
is modelled as an explicit state record, each method as a pure state
transformer, and each asynchronous network interaction as an explicit outcome
parameter.  All definitions are translated from the source files
`transport.ts`, `client.ts` and `queue.ts`.
-/

set_option maxHeartbeats 1000000

/-! ## Offline queue (queue.ts) -/

/-- An item of the offline queue (`QueuedRequest` in types.ts).  `params` is an
opaque payload; `id` is the unique removal key produced by `randomId()`. -/
structure QueuedRequest where
  id : String
  method : String
  params : Option String
  createdAt : Nat
deriving Repr, DecidableEq

/-- `InMemoryQueueStorage.add`: push the item at the back of the list. -/
def storageAdd (items : List QueuedRequest) (it : QueuedRequest) : List QueuedRequest :=
  items ++ [it]

/-- `InMemoryQueueStorage.remove`: keep the items whose id differs. -/
def storageRemove (items : List QueuedRequest) (rid : String) : List QueuedRequest :=
  items.filter (fun it => it.id ≠ rid)

/-- `OfflineQueue.enqueue` (queue.ts lines 32-48).  The JS guard
`this.options.maxQueueSize && items.length >= this.options.maxQueueSize` is
falsy when the bound is absent or `0`; eviction removes `items[0]` by id, and
the new item is always appended afterwards.  The fresh random id and timestamp
are supplied through `newItem`. -/
def OfflineQueue.enqueue (maxQueueSize : Option Nat) (items : List QueuedRequest)
    (newItem : QueuedRequest) : List QueuedRequest :=
  let afterEvict :=
    match maxQueueSize with
    | none => items
    | some n =>
      if n ≠ 0 ∧ n ≤ items.length then
        match items.head? with
        | some oldest => storageRemove items oldest.id
        | none => items
      else items
  storageAdd afterEvict newItem

/-- Sequentially enqueue a list of new items (left to right). -/
def OfflineQueue.enqueueAll (maxQueueSize : Option Nat) (newItems : List QueuedRequest)
    (items : List QueuedRequest) : List QueuedRequest :=
  newItems.foldl (fun st it => OfflineQueue.enqueue maxQueueSize st it) items

/-- `OfflineQueue.flush` (queue.ts lines 50-56), running over the snapshot
taken by `getAll()`.  `sender` throwing (modelled as `Except.error`) aborts the
pass; each item is removed from storage only after its `sender` call returns
normally.  Returns the final storage content and the raised error, if any. -/
def flushGo (sender : QueuedRequest → Except String Unit) :
    List QueuedRequest → List QueuedRequest → List QueuedRequest × Option String
  | [], st => (st, none)
  | it :: rest, st =>
    match sender it with
    | Except.error e => (st, some e)
    | Except.ok _ => flushGo sender rest (storageRemove st it.id)

/-- `OfflineQueue.flush`: snapshot the storage, then run the sequential pass. -/
def OfflineQueue.flush (sender : QueuedRequest → Except String Unit)
    (st : List QueuedRequest) : List QueuedRequest × Option String :=
  flushGo sender st st

/-! ## Client orchestrator (client.ts) -/

/-- The memoization state of `McpClient` (client.ts lines 23-26): the four
private fields `initialized`, `initResult`, `initPromise` (modelled by the run
id of the in-flight attempt, if any) and `initGeneration`. -/
structure ClientState (V : Type) where
  initialized : Bool
  initResult : Option V
  initPromiseRun : Option Nat
  initGeneration : Nat
deriving Repr, DecidableEq

/-- A freshly constructed `McpClient`. -/
def ClientState.start (V : Type) : ClientState V :=
  ⟨false, none, none, 0⟩

/-- What one call of the client's `initialize` method returns to its caller.
`started` is the only outcome that issues an underlying protocol request
(`this.request` with method string "initialize"); `joined` returns the already
in-flight promise of run `run`; `cached` returns `this.initResult`. -/
inductive InitCallOutcome (V : Type)
  | cached (result : Option V)
  | joined (run : Nat)
  | started (run : Nat)
deriving Repr, DecidableEq

/-- The synchronous prefix of `McpClient.initialize` (client.ts lines 34-47):
a cached result or an in-flight promise is returned as is; otherwise the
generation is pre-incremented, its new value is the run id of the attempt, and
the new promise is recorded before the call suspends. -/
def initCall {V : Type} (st : ClientState V) : InitCallOutcome V × ClientState V :=
  if st.initialized then (InitCallOutcome.cached st.initResult, st)
  else
    match st.initPromiseRun with
    | some r => (InitCallOutcome.joined r, st)
    | none =>
      let runId := st.initGeneration + 1
      (InitCallOutcome.started runId,
        { st with initGeneration := runId, initPromiseRun := some runId })

/-- The `.then`/`.finally` continuation of a successful underlying request
(client.ts lines 48-54 and 62-66): both the cache write and the promise-field
clear are gated on `initRunId === this.initGeneration`. -/
def initResolve {V : Type} (st : ClientState V) (runId : Nat) (result : V) : ClientState V :=
  let st1 := if runId = st.initGeneration then
      { st with initialized := true, initResult := some result }
    else st
  if runId = st1.initGeneration then { st1 with initPromiseRun := none } else st1

/-- The `.catch`/`.finally` continuation of a failed underlying request
(client.ts lines 55-66), with the same generation gate. -/
def initReject {V : Type} (st : ClientState V) (runId : Nat) : ClientState V :=
  let st1 := if runId = st.initGeneration then
      { st with initialized := false, initResult := none }
    else st
  if runId = st1.initGeneration then { st1 with initPromiseRun := none } else st1

/-- `McpClient.close` (client.ts lines 116-124): the generation is bumped
first; the three state resets run only if the delegated transport close
(when present) returned normally, which `transportCloseOk` records. -/
def clientClose {V : Type} (st : ClientState V) (transportCloseOk : Bool) : ClientState V :=
  let st1 := { st with initGeneration := st.initGeneration + 1 }
  if transportCloseOk then
    { st1 with initialized := false, initResult := none, initPromiseRun := none }
  else st1

/-! ## Transport errors and retry policy (types.ts, transport.ts) -/

/-- A raised error as the transport observes it: the message plus the optional
`status` property attached to HTTP failures (transport.ts lines 275-276). -/
structure McpError where
  message : String
  status : Option Nat
deriving Repr, DecidableEq

/-- `RetryPolicy` (types.ts): `retryOn` is optional; the call site applies
`?? true` when it is absent. -/
structure RetryPolicy where
  retries : Nat
  baseDelayMs : Nat
  maxDelayMs : Nat
  retryOn : Option (McpError → Nat → Bool)

/-- `defaultRetryPolicy` (transport.ts lines 38-43). -/
def defaultRetryPolicy : RetryPolicy :=
  ⟨2, 300, 2000, some (fun _ _ => true)⟩

/-- `status != null && status >= 400 && status < 500` (transport.ts line 365). -/
def isClientErrorStatus (e : McpError) : Bool :=
  match e.status with
  | some s => decide (400 ≤ s) && decide (s < 500)
  | none => false

/-- `!isClientError && (this.retryPolicy.retryOn?.(error, attempt) ?? true)`
(transport.ts lines 366-367). -/
def shouldRetryError (policy : RetryPolicy) (e : McpError) (attempt : Nat) : Bool :=
  !isClientErrorStatus e &&
    (match policy.retryOn with
     | some f => f e attempt
     | none => true)

/-- `Math.min(baseDelayMs * 2 ** attempt, maxDelayMs)` (transport.ts
lines 370-373). -/
def backoffDelay (policy : RetryPolicy) (attempt : Nat) : Nat :=
  min (policy.baseDelayMs * 2 ^ attempt) policy.maxDelayMs

/-- The defensive terminal error after the loop (transport.ts line 378). -/
def exhaustedError : McpError :=
  ⟨"MCP request failed after retries.", none⟩

/-- The attempt loop of `HttpTransport.request` (transport.ts lines 213-378).
`net attempt` is the outcome of the attempt's HTTP exchange and decode.  The
`fuel` argument counts the iterations the `for` loop still allows (the loop
runs while `attempt <= retries`, so it starts at `retries + 1`); running out of
fuel is the fall-through to the final `throw` on line 378.  The result carries
the value or raised error, the list of back-off sleeps performed, and the
number of attempts (calls of `net`) made. -/
def attemptLoop {α : Type} (policy : RetryPolicy) (net : Nat → Except McpError α) :
    Nat → Nat → Except McpError α × List Nat × Nat
  | _, 0 => (Except.error exhaustedError, [], 0)
  | attempt, fuel + 1 =>
    match net attempt with
    | Except.ok v => (Except.ok v, [], 1)
    | Except.error e =>
      if shouldRetryError policy e attempt = false ∨ policy.retries ≤ attempt then
        (Except.error e, [], 1)
      else
        let rest := attemptLoop policy net (attempt + 1) fuel
        (rest.1, backoffDelay policy attempt :: rest.2.1, rest.2.2 + 1)

/-- `HttpTransport.request`: run the attempt loop from attempt 0. -/
def transportRequest {α : Type} (policy : RetryPolicy) (net : Nat → Except McpError α) :
    Except McpError α × List Nat × Nat :=
  attemptLoop policy net 0 (policy.retries + 1)

/-! ## Transport session state (transport.ts lines 187-341, 489-535) -/

/-- The session fields of `HttpTransport` (lines 195-196).  The class has no
other session-related field: in particular it holds no generation counter. -/
structure SessionState where
  sessionId : Option String
  protocolVersion : Option String
deriving Repr, DecidableEq

/-- The start of an `initialize` attempt (transport.ts lines 220-228): any
previously held session id / protocol version is cleared before sending. -/
def initAttemptClear (_st : SessionState) : SessionState :=
  ⟨none, none⟩

/-- The commit performed when an `initialize` response arrives (transport.ts
lines 302-341): the `mcp-session-id` response header, when present, is written
to `sessionId`, and `protocolVersion` is taken from the decoded result when it
carries one, else defaults to the baseline version.  The write is performed on
whatever the current state is; no generation (or any other) condition guards
it. -/
def initCommitResponse (st : SessionState) (sessionIdHeader : Option String)
    (resultProtocolVersion : Option String) : SessionState :=
  let st1 :=
    match sessionIdHeader with
    | some h => { st with sessionId := some h }
    | none => st
  { st1 with protocolVersion := some (resultProtocolVersion.getD ("2024-11-05")) }

/-- Outcome of the DELETE exchange performed by `HttpTransport.close`: either
an HTTP response with a status, or a rejected fetch. -/
inductive CloseNetOutcome
  | response (status : Nat)
  | networkFailure (e : McpError)
deriving Repr, DecidableEq

/-- `Response.ok` of the fetch API: status in 200..299. -/
def httpStatusOk (status : Nat) : Bool :=
  decide (200 ≤ status) && decide (status ≤ 299)

deriving instance DecidableEq for Except

/-- What one call of `HttpTransport.close` produces: the value returned or
error raised, the session state it leaves behind, and whether `logger.warn`
was invoked. -/
structure CloseResult where
  outcome : Except McpError Unit
  state : SessionState
  warnLogged : Bool
deriving Repr, DecidableEq

/-- `HttpTransport.close` (transport.ts lines 489-535).  With no session it
logs and returns.  Otherwise the DELETE is sent; a non-ok non-404 status
raises inside the `try`, and the `catch` logs a warning, clears the session
state, and rethrows the error; a network failure takes the same `catch` path;
on success the state is cleared and the method returns normally. -/
def transportClose (st : SessionState) (net : CloseNetOutcome) : CloseResult :=
  match st.sessionId with
  | none => ⟨Except.ok (), st, true⟩
  | some _ =>
    match net with
    | CloseNetOutcome.response status =>
      if httpStatusOk status = false ∧ status ≠ 404 then
        ⟨Except.error ⟨"HTTP " ++ toString status, some status⟩, ⟨none, none⟩, true⟩
      else
        ⟨Except.ok (), ⟨none, none⟩, false⟩
    | CloseNetOutcome.networkFailure e =>
      ⟨Except.error e, ⟨none, none⟩, true⟩

/-! ## Upload (transport.ts lines 432-487) -/

/-- `FileLike` (types.ts): the binary payload kinds (`Blob`, `ArrayBuffer`,
`Uint8Array`) are collapsed to a byte list; all three are objects, hence
truthy whenever present, so `if (file.data)` tests presence. -/
structure FileLike where
  name : String
  type : Option String
  uri : Option String
  data : Option (List Nat)
deriving Repr, DecidableEq

/-- The file part appended to the multipart form (transport.ts lines 462-468):
either a `Blob` built from the in-memory bytes, or the uri/name/type record. -/
inductive FilePart
  | fromData (bytes : List Nat) (name : String)
  | fromUri (uri : String) (name : String) (type : Option String)
deriving Repr, DecidableEq

/-- The error thrown by `upload` when the file carries no payload. -/
def missingFileDataError : McpError :=
  ⟨"FileLike must include data or uri.", none⟩

/-- The `if (file.data) ... else if (file.uri) ... else throw` chain of
`HttpTransport.upload` (transport.ts lines 462-468). -/
def buildFilePart (f : FileLike) : Except McpError FilePart :=
  match f.data with
  | some d => Except.ok (FilePart.fromData d f.name)
  | none =>
    match f.uri with
    | some u => Except.ok (FilePart.fromUri u f.name f.type)
    | none => Except.error missingFileDataError

/-- `HttpTransport.upload` around its file-part construction: the `throw`
happens while building the form, before `fetch` runs, so the second component
records whether an HTTP request was sent at all.  `net` is the outcome of the
POST of the finished form. -/
def uploadSend (f : FileLike) (net : FilePart → Except McpError String) :
    Except McpError String × Bool :=
  match buildFilePart f with
  | Except.error e => (Except.error e, false)
  | Except.ok part => (net part, true)

/-! ## SSE frame parsing (transport.ts lines 105-185)

JS strings are embedded as `List Char` so that the splitting and trimming
primitives the parsers use are structurally recursive. -/

/-- JS whitespace as `String.prototype.trim` removes it, restricted to the
ASCII characters that can occur in an SSE line. -/
def isJsWhitespace (c : Char) : Bool :=
  c = ' ' || c = '\t' || c = '\n' || c = '\r'

/-- Remove leading and trailing whitespace (`.trim()`). -/
def trimChars (l : List Char) : List Char :=
  ((l.dropWhile isJsWhitespace).reverse.dropWhile isJsWhitespace).reverse

/-- Split on every `'\n'` (the separator itself is dropped). -/
def splitOnNl : List Char → List (List Char)
  | [] => [[]]
  | c :: rest =>
    let parts := splitOnNl rest
    if c = '\n' then [] :: parts
    else
      match parts with
      | [] => [[c]]
      | p :: ps => (c :: p) :: ps

/-- One segment produced by `split(/\r?\n/)`: a `'\r'` immediately before the
`'\n'` separator is consumed with it. -/
def stripTrailingCr (l : List Char) : List Char :=
  if l.getLast? = some '\r' then l.dropLast else l

/-- `text.split(/\r?\n/)`: split on `'\n'` and strip a trailing `'\r'` from
every segment that was terminated by a `'\n'` (that is, all but the last). -/
def splitCrlf (s : List Char) : List (List Char) :=
  match (splitOnNl s).reverse with
  | [] => []
  | last :: revInit => revInit.reverse.map stripTrailingCr ++ [last]

/-- The `data:` marker the parsers look for at the start of a line. -/
def dataMarker : List Char :=
  ['d', 'a', 't', 'a', ':']

/-- The `[DONE]` termination sentinel. -/
def doneSentinel : List Char :=
  ['[', 'D', 'O', 'N', 'E', ']']

/-- The per-line filter of both SSE parsers (transport.ts lines 125-128 and
142-145): ignore lines without the `data:` marker, strip it (`slice(5)`),
trim, and ignore empty payloads and the `[DONE]` sentinel. -/
def dataLinePayload (line : List Char) : Option (List Char) :=
  if line.take 5 ≠ dataMarker then none
  else
    let d := trimChars (line.drop 5)
    if d = [] ∨ d = doneSentinel then none else some d

/-- The error raised when a single-result parse finds no data line. -/
def noDataError : McpError :=
  ⟨"No valid SSE data found in response", none⟩

/-- `decodeSseText` inside `parseSseResponse` (transport.ts lines 140-153):
scan the lines of the full text and decode the first valid payload.  `decode`
stands for `JSON.parse` plus the `jsonrpc` envelope dispatch, which the claims
under proof do not inspect. -/
def decodeSseText {α : Type} (decode : List Char → α) (text : List Char) :
    Except McpError α :=
  match (splitCrlf text).filterMap dataLinePayload with
  | [] => Except.error noDataError
  | d :: _ => Except.ok (decode d)

/-- The incremental single-result loop of `parseSseResponse` (transport.ts
lines 160-184): append the chunk to the rolling buffer, split, keep the last
(possibly unterminated) segment as the next buffer (`buffer = lines.pop()`),
and return the first valid payload among the complete lines; end of stream
with none found raises.  A datum still sitting in the buffer at end of stream
is not examined. -/
def sseSingleFromChunks {α : Type} (decode : List Char → α) :
    List (List Char) → List Char → Except McpError α
  | [], _ => Except.error noDataError
  | c :: cs, buf =>
    let parts := splitCrlf (buf ++ c)
    match (parts.dropLast).filterMap dataLinePayload with
    | d :: _ => Except.ok (decode d)
    | [] => sseSingleFromChunks decode cs (parts.getLast?.getD [])

/-- The lazy generator `parseSseStream` body (transport.ts lines 117-136),
materialized: every decoded payload of every complete line, in order. -/
def sseStreamFromChunks {α : Type} (decode : List Char → α) :
    List (List Char) → List Char → List α
  | [], _ => []
  | c :: cs, buf =>
    let parts := splitCrlf (buf ++ c)
    ((parts.dropLast).filterMap dataLinePayload).map decode
      ++ sseStreamFromChunks decode cs (parts.getLast?.getD [])

/-- The fetch `Response` as the SSE parsers see it: `bodyChunks` is
`response.body` (absent when the runtime exposes no readable stream), already
decoded to text chunk by chunk; `text` is what `response.text()` returns. -/
structure SseResponse where
  bodyChunks : Option (List (List Char))
  text : List Char

/-- Whether the runtime defines `TextDecoder`. -/
structure SseRuntime where
  textDecoderAvailable : Bool

/-- The streaming-unsupported error of `parseSseStream` (line 107). -/
def streamUnsupportedError : McpError :=
  ⟨"Streaming not supported in this runtime.", none⟩

/-- The missing-decoder error of `parseSseStream` (line 110). -/
def textDecoderUnavailableError : McpError :=
  ⟨"TextDecoder is not available for streaming.", none⟩

/-- `parseSseStream` (transport.ts lines 105-137): no readable body or no
`TextDecoder` raises; otherwise the lazy sequence of decoded messages. -/
def parseSseStream {α : Type} (rt : SseRuntime) (decode : List Char → α)
    (resp : SseResponse) : Except McpError (List α) :=
  match resp.bodyChunks with
  | none => Except.error streamUnsupportedError
  | some chunks =>
    if rt.textDecoderAvailable = false then
      Except.error textDecoderUnavailableError
    else
      Except.ok (sseStreamFromChunks decode chunks [])

/-- `parseSseResponse` (transport.ts lines 139-185): when the body is missing
or `TextDecoder` is unavailable it falls back to `response.text()` and scans
the full text; otherwise it runs the incremental single-result loop. -/
def parseSseResponse {α : Type} (rt : SseRuntime) (decode : List Char → α)
    (resp : SseResponse) : Except McpError α :=
  match resp.bodyChunks with
  | none => decodeSseText decode resp.text
  | some chunks =>
    if rt.textDecoderAvailable = false then decodeSseText decode resp.text
    else sseSingleFromChunks decode chunks []

/-- Whether the DELETE exchange of `close` ends in the `catch` branch: a
response that is neither ok (2xx) nor 404, or a rejected fetch. -/
def closeTerminationFailed (net : CloseNetOutcome) : Bool :=
  match net with
  | CloseNetOutcome.response status => !httpStatusOk status && !(status == 404)
  | CloseNetOutcome.networkFailure _ => true

/-! ## Helper lemmas -/

theorem storageRemove_cons_self (x : QueuedRequest) (rest : List QueuedRequest)
    (h : x.id ∉ rest.map QueuedRequest.id) :
    storageRemove (x :: rest) x.id = rest := by
  simp only [storageRemove, List.filter_cons]
  have hx : (decide (x.id ≠ x.id)) = false := by simp
  rw [hx]
  simp only [Bool.false_eq_true, if_false]
  rw [List.filter_eq_self]
  intro a ha
  simp only [decide_eq_true_eq]
  intro hax
  exact h (hax ▸ List.mem_map_of_mem QueuedRequest.id ha)

theorem enqueue_of_lt (n : Nat) (st : List QueuedRequest) (x : QueuedRequest)
    (hlt : st.length < n) :
    OfflineQueue.enqueue (some n) st x = st ++ [x] := by
  simp only [OfflineQueue.enqueue, storageAdd]
  rw [if_neg]
  omega

theorem enqueue_of_full (n : Nat) (y x : QueuedRequest) (rest : List QueuedRequest)
    (hn : 1 ≤ n) (hlen : (y :: rest).length = n)
    (hnodup : ((y :: rest).map QueuedRequest.id).Nodup) :
    OfflineQueue.enqueue (some n) (y :: rest) x = rest ++ [x] := by
  simp only [OfflineQueue.enqueue, storageAdd]
  rw [if_pos (by omega)]
  simp only [List.head?_cons]
  rw [storageRemove_cons_self]
  simp only [List.map_cons, List.nodup_cons] at hnodup
  exact hnodup.1

theorem enqueueAll_suffix (n : Nat) (hn : 1 ≤ n) :
    ∀ (xs st : List QueuedRequest), st.length ≤ n →
      ((st ++ xs).map QueuedRequest.id).Nodup →
      OfflineQueue.enqueueAll (some n) xs st =
        (st ++ xs).drop ((st ++ xs).length - n) := by
  intro xs
  induction xs with
  | nil =>
    intro st hlen _
    simp [OfflineQueue.enqueueAll, Nat.sub_eq_zero_of_le hlen]
  | cons x xs ih =>
    intro st hlen hnodup
    have hstep : OfflineQueue.enqueueAll (some n) (x :: xs) st =
        OfflineQueue.enqueueAll (some n) xs (OfflineQueue.enqueue (some n) st x) := rfl
    rw [hstep]
    by_cases hlt : st.length < n
    · rw [enqueue_of_lt n st x hlt]
      rw [ih (st ++ [x]) (by simp; omega)
        (by simpa [List.append_assoc] using hnodup)]
      simp [List.append_assoc]
    · have hlen' : st.length = n := le_antisymm hlen (not_lt.mp hlt)
      obtain ⟨y, rest, rfl⟩ : ∃ y rest, st = y :: rest := by
        cases st with
        | nil => exfalso; simp at hlen'; omega
        | cons a l => exact ⟨a, l, rfl⟩
      · rw [enqueue_of_full n y x rest hn hlen'
          (by
            have : ((y :: rest) ++ x :: xs).map QueuedRequest.id =
                (y :: rest).map QueuedRequest.id ++ (x :: xs).map QueuedRequest.id := by
              simp
            exact List.Nodup.of_append_left (by rw [← this]; exact hnodup))]
        rw [ih (rest ++ [x]) (by simp at hlen' ⊢; omega)
          (by
            have h1 : ((rest ++ [x]) ++ xs) = rest ++ x :: xs := by simp
            rw [h1]
            have h2 : ((y :: rest) ++ x :: xs).map QueuedRequest.id =
                y.id :: (rest ++ x :: xs).map QueuedRequest.id := by simp
            have := hnodup
            rw [h2] at this
            exact (List.nodup_cons.mp this).2)]
        have h1 : ((rest ++ [x]) ++ xs) = rest ++ x :: xs := by simp
        rw [h1]
        have h2 : (y :: rest) ++ x :: xs = y :: (rest ++ x :: xs) := by simp
        rw [h2]
        have hl1 : (rest ++ x :: xs).length - n = xs.length := by
          simp at hlen' ⊢
          omega
        have hl2 : (y :: (rest ++ x :: xs)).length - n = xs.length + 1 := by
          simp at hlen' ⊢
          omega
        rw [hl1, hl2, List.drop_succ_cons]

/-! ## Claim C7 -/

/-- Claim C7: a queue bounded to `n` items (`n ≥ 1`), fed `n + 1` items with
the distinct ids `randomId()` produces, evicts exactly the single oldest item:
`enqueue` evicts first only when the count has reached the bound and always
appends afterwards, so the queue retains exactly the last `n` items in their
original relative order and the newest item is never the one lost. -/
theorem offline_queue_keeps_newest (n : Nat) (xs : List QueuedRequest)
    (hn : 1 ≤ n) (hlen : xs.length = n + 1)
    (hnodup : (xs.map QueuedRequest.id).Nodup) :
    OfflineQueue.enqueueAll (some n) xs [] = xs.tail := by
  have h := enqueueAll_suffix n hn xs [] (by simp) (by simpa using hnodup)
  simp only [List.nil_append] at h
  rw [h, hlen, Nat.succ_sub (Nat.le_refl n), Nat.sub_self, List.drop_one]

/-- Witness for C7 at a concrete input: three distinct items through a queue
bounded to two leave the last two. -/
theorem offline_queue_keeps_newest_witness :
    OfflineQueue.enqueueAll (some 2)
      [⟨("a"), ("m"), none, 0⟩, ⟨("b"), ("m"), none, 1⟩, ⟨("c"), ("m"), none, 2⟩] [] =
      ([⟨("a"), ("m"), none, 0⟩, ⟨("b"), ("m"), none, 1⟩,
        ⟨("c"), ("m"), none, 2⟩] : List QueuedRequest).tail :=
  offline_queue_keeps_newest 2
    [⟨("a"), ("m"), none, 0⟩, ⟨("b"), ("m"), none, 1⟩, ⟨("c"), ("m"), none, 2⟩]
    (by decide) (by decide) (by decide)

/-! ## Claim C8 -/

theorem flushGo_fail_at (sender : QueuedRequest → Except String Unit) :
    ∀ (zs : List QueuedRequest) (k : Nat) (e : String)
      (_hnodup : (zs.map QueuedRequest.id).Nodup) (hk : k < zs.length)
      (_hsucc : ∀ j : Fin zs.length, (j : Nat) < k → sender (zs.get j) = Except.ok ())
      (_hfail : sender (zs.get ⟨k, hk⟩) = Except.error e),
      flushGo sender zs zs = (zs.drop k, some e) := by
  intro zs
  induction zs with
  | nil => intro k e _ hk _ _; exact absurd hk (Nat.not_lt_zero k)
  | cons z rest ih =>
    intro k e hnodup hk hsucc hfail
    match k with
    | 0 =>
      have hz : sender z = Except.error e := hfail
      simp [flushGo, hz]
    | k + 1 =>
      have hz : sender z = Except.ok () := by
        have := hsucc ⟨0, Nat.zero_lt_succ _⟩ (Nat.succ_pos k)
        exact this
      have hrm : storageRemove (z :: rest) z.id = rest := by
        apply storageRemove_cons_self
        simp only [List.map_cons, List.nodup_cons] at hnodup
        exact hnodup.1
      have hrec : flushGo sender rest rest = (rest.drop k, some e) := by
        apply ih k e
        · simp only [List.map_cons, List.nodup_cons] at hnodup
          exact hnodup.2
        · intro j hj
          exact hsucc ⟨(j : Nat) + 1, Nat.succ_lt_succ j.isLt⟩ (Nat.succ_lt_succ hj)
        · exact hfail
      calc flushGo sender (z :: rest) (z :: rest)
          = flushGo sender rest (storageRemove (z :: rest) z.id) := by
            simp [flushGo, hz]
        _ = flushGo sender rest rest := by rw [hrm]
        _ = (rest.drop k, some e) := hrec
        _ = ((z :: rest).drop (k + 1), some e) := by rw [List.drop_succ_cons]

/-- Claim C8: `flush` walks the snapshot sequentially in FIFO order and
removes each item only after its `sender` call succeeds; when `sender` fails
on the item at position `k` (zero-based), the pass aborts with that error,
the items before position `k` have been removed, and the items from position
`k` onward are still in storage. -/
theorem offline_flush_partial (sender : QueuedRequest → Except String Unit)
    (xs : List QueuedRequest) (k : Nat) (e : String)
    (hnodup : (xs.map QueuedRequest.id).Nodup) (hk : k < xs.length)
    (hsucc : ∀ j : Fin xs.length, (j : Nat) < k → sender (xs.get j) = Except.ok ())
    (hfail : sender (xs.get ⟨k, hk⟩) = Except.error e) :
    OfflineQueue.flush sender xs = (xs.drop k, some e) :=
  flushGo_fail_at sender xs k e hnodup hk hsucc hfail

/-- Witness for C8 at a concrete input: the sender fails on the second of
three items; the first is gone, the second and third remain queued, and the
error is the one the sender raised. -/
theorem offline_flush_partial_witness :
    OfflineQueue.flush
      (fun it => if it.id = ("b") then Except.error ("boom") else Except.ok ())
      [⟨("a"), ("m"), none, 0⟩, ⟨("b"), ("m"), none, 1⟩, ⟨("c"), ("m"), none, 2⟩] =
      (([⟨("a"), ("m"), none, 0⟩, ⟨("b"), ("m"), none, 1⟩,
         ⟨("c"), ("m"), none, 2⟩] : List QueuedRequest).drop 1, some ("boom")) :=
  offline_flush_partial
    (fun it => if it.id = ("b") then Except.error ("boom") else Except.ok ())
    [⟨("a"), ("m"), none, 0⟩, ⟨("b"), ("m"), none, 1⟩, ⟨("c"), ("m"), none, 2⟩]
    1 ("boom") (by decide) (by decide) (by decide) (by decide)

/-! ## Claim C3 -/

/-- Claim C3: the client's `initialize` is idempotent-memoized.  On a fresh
client the first call starts run 1 — `started` is the only outcome that
issues an underlying protocol request.  A call made while that run is in
flight returns the same in-flight promise (`joined 1`) and leaves the state
untouched, so no second request is issued.  Resolving run 1 caches its result,
and a call made afterwards returns the cached result directly, again without
issuing a request. -/
theorem client_init_memoized (V : Type) (v : V) :
    (initCall (ClientState.start V) =
      (InitCallOutcome.started 1, ⟨false, none, some 1, 1⟩)) ∧
    (initCall (⟨false, none, some 1, 1⟩ : ClientState V) =
      (InitCallOutcome.joined 1, ⟨false, none, some 1, 1⟩)) ∧
    (initResolve (⟨false, none, some 1, 1⟩ : ClientState V) 1 v =
      ⟨true, some v, none, 1⟩) ∧
    (initCall (⟨true, some v, none, 1⟩ : ClientState V) =
      (InitCallOutcome.cached (some v), ⟨true, some v, none, 1⟩)) := by
  refine ⟨rfl, rfl, ?_, rfl⟩
  simp [initResolve]

/-! ## Claim C4 -/

theorem initResolve_stale {V : Type} (st : ClientState V) (runId : Nat) (v : V)
    (h : runId ≠ st.initGeneration) :
    initResolve st runId v = st := by
  simp [initResolve, h]

theorem initReject_stale {V : Type} (st : ClientState V) (runId : Nat)
    (h : runId ≠ st.initGeneration) :
    initReject st runId = st := by
  simp [initReject, h]

/-- Claim C4: calling the client's `close` while an in-flight `initialize`
run is pending increments the generation past that run's id, so however the
transport-close delegation ends (`tOk`), when the stale run later resolves its
outcome mutates nothing: the client is not marked initialized and the stale
result is not cached. -/
theorem client_close_discards_inflight (V : Type) (v : V) (tOk : Bool) :
    (initResolve (clientClose (initCall (ClientState.start V)).2 tOk) 1 v =
      clientClose (initCall (ClientState.start V)).2 tOk) ∧
    (initReject (clientClose (initCall (ClientState.start V)).2 tOk) 1 =
      clientClose (initCall (ClientState.start V)).2 tOk) ∧
    ((clientClose (initCall (ClientState.start V)).2 tOk).initialized = false) ∧
    ((clientClose (initCall (ClientState.start V)).2 tOk).initResult = none) := by
  have hst : (initCall (ClientState.start V)).2 =
      (⟨false, none, some 1, 1⟩ : ClientState V) := rfl
  rw [hst]
  cases tOk with
  | false =>
    refine ⟨?_, ?_, rfl, rfl⟩
    · apply initResolve_stale
      simp [clientClose]
    · apply initReject_stale
      simp [clientClose]
  | true =>
    refine ⟨?_, ?_, rfl, rfl⟩
    · apply initResolve_stale
      simp [clientClose]
    · apply initReject_stale
      simp [clientClose]

/-- Witness for C3 at the concrete result type `Nat` and result value 7. -/
theorem client_init_memoized_witness :
    (initCall (ClientState.start Nat) =
      (InitCallOutcome.started 1, ⟨false, none, some 1, 1⟩)) ∧
    (initCall (⟨false, none, some 1, 1⟩ : ClientState Nat) =
      (InitCallOutcome.joined 1, ⟨false, none, some 1, 1⟩)) ∧
    (initResolve (⟨false, none, some 1, 1⟩ : ClientState Nat) 1 7 =
      ⟨true, some 7, none, 1⟩) ∧
    (initCall (⟨true, some 7, none, 1⟩ : ClientState Nat) =
      (InitCallOutcome.cached (some 7), ⟨true, some 7, none, 1⟩)) :=
  client_init_memoized Nat 7

/-- Witness for C4 at the concrete result type `Nat`, result value 7, and a
transport close that raised. -/
theorem client_close_discards_inflight_witness :
    (initResolve (clientClose (initCall (ClientState.start Nat)).2 false) 1 7 =
      clientClose (initCall (ClientState.start Nat)).2 false) ∧
    (initReject (clientClose (initCall (ClientState.start Nat)).2 false) 1 =
      clientClose (initCall (ClientState.start Nat)).2 false) ∧
    ((clientClose (initCall (ClientState.start Nat)).2 false).initialized = false) ∧
    ((clientClose (initCall (ClientState.start Nat)).2 false).initResult = none) :=
  client_close_discards_inflight Nat 7 false

/-! ## Claim C5 -/

/-- Claim C5: inside `request`, an attempt that fails with an HTTP status in
400..499 is raised immediately: no back-off sleep happens and no further
attempt is made, whatever `retryOn` is (the 4xx test short-circuits the
predicate), at every attempt index and for every remaining loop budget. -/
theorem request_4xx_never_retried {α : Type} (policy : RetryPolicy)
    (net : Nat → Except McpError α) (a fuel : Nat) (e : McpError) (s : Nat)
    (hnet : net a = Except.error e) (hs : e.status = some s)
    (h4 : 400 ≤ s) (h5 : s < 500) :
    attemptLoop policy net a (fuel + 1) = (Except.error e, [], 1) := by
  have hce : isClientErrorStatus e = true := by
    simp [isClientErrorStatus, hs, h4, h5]
  have hsr : shouldRetryError policy e a = false := by
    simp [shouldRetryError, hce]
  simp [attemptLoop, hnet, hsr]

/-- Witness for C5: a 404 with the retry-everything predicate and plenty of
budget stops at once. -/
theorem request_4xx_never_retried_witness :
    attemptLoop defaultRetryPolicy
      (fun _ => (Except.error ⟨("HTTP 404"), some 404⟩ : Except McpError Nat)) 0 3 =
      (Except.error ⟨("HTTP 404"), some 404⟩, [], 1) :=
  request_4xx_never_retried defaultRetryPolicy _ 0 2 ⟨("HTTP 404"), some 404⟩ 404
    rfl rfl (by decide) (by decide)

/-! ## Claim C6 -/

theorem attemptLoop_error_step {α : Type} (policy : RetryPolicy)
    (net : Nat → Except McpError α) (a fuel : Nat) (e : McpError)
    (hnet : net a = Except.error e)
    (hcond : ¬(shouldRetryError policy e a = false ∨ policy.retries ≤ a)) :
    attemptLoop policy net a (fuel + 1) =
      ((attemptLoop policy net (a + 1) fuel).1,
       backoffDelay policy a :: (attemptLoop policy net (a + 1) fuel).2.1,
       (attemptLoop policy net (a + 1) fuel).2.2 + 1) := by
  simp only [attemptLoop, hnet]
  rw [if_neg hcond]

theorem attemptLoop_all_fail {α : Type} (policy : RetryPolicy)
    (net : Nat → Except McpError α) (errs : Nat → McpError)
    (hfail : ∀ a, a ≤ policy.retries → net a = Except.error (errs a))
    (hsr : ∀ a, a < policy.retries → shouldRetryError policy (errs a) a = true) :
    ∀ (n a : Nat), a + n = policy.retries →
      attemptLoop policy net a (n + 1) =
        (Except.error (errs policy.retries),
         (List.range' a n).map (backoffDelay policy), n + 1) := by
  intro n
  induction n with
  | zero =>
    intro a ha
    have hnet := hfail a (by omega)
    have hra : policy.retries ≤ a := by omega
    have hae : a = policy.retries := by omega
    simp only [attemptLoop, hnet, List.range', List.map_nil]
    rw [if_pos (Or.inr hra), hae]
  | succ n ih =>
    intro a ha
    have hnet := hfail a (by omega)
    have hsra := hsr a (by omega)
    have hcond : ¬(shouldRetryError policy (errs a) a = false ∨ policy.retries ≤ a) := by
      rw [hsra]
      simp only [Bool.true_eq_false, false_or, not_le]
      omega
    rw [attemptLoop_error_step policy net a (n + 1) (errs a) hnet hcond,
      ih (a + 1) (by omega)]
    rw [List.range'_succ, List.map_cons]

/-- Claim C6: when every attempt fails with a retryable error (the 4xx test
is false and `retryOn` answers true), `request` makes exactly
`policy.retries` re-attempts after the initial attempt — `policy.retries + 1`
network calls in all — raising the final attempt's error; before re-attempt
`attempt + 1` it sleeps exactly `min(baseDelayMs * 2 ^ attempt, maxDelayMs)`,
and (for a positive base delay) that sequence is strictly increasing until it
reaches the cap, and never decreases thereafter. -/
theorem request_retry_backoff {α : Type} (policy : RetryPolicy)
    (net : Nat → Except McpError α) (errs : Nat → McpError)
    (hbase : 1 ≤ policy.baseDelayMs)
    (hfail : ∀ a, a ≤ policy.retries → net a = Except.error (errs a))
    (hretryable : ∀ a, a < policy.retries → shouldRetryError policy (errs a) a = true) :
    (transportRequest policy net =
      (Except.error (errs policy.retries),
       (List.range policy.retries).map (backoffDelay policy), policy.retries + 1)) ∧
    (∀ a, backoffDelay policy a < policy.maxDelayMs →
      backoffDelay policy a < backoffDelay policy (a + 1)) ∧
    (∀ a, backoffDelay policy a ≤ backoffDelay policy (a + 1)) := by
  have hxy : ∀ a, policy.baseDelayMs * 2 ^ (a + 1) = policy.baseDelayMs * 2 ^ a * 2 := by
    intro a
    rw [pow_succ, mul_assoc]
  have hx1 : ∀ a, 1 ≤ policy.baseDelayMs * 2 ^ a := fun a =>
    Nat.mul_pos hbase (Nat.pos_pow_of_pos a (by omega))
  refine ⟨?_, ?_, ?_⟩
  · have h := attemptLoop_all_fail policy net errs hfail hretryable policy.retries 0
      (by omega)
    rw [transportRequest, h, List.range_eq_range']
  · intro a hlt
    have h1 := hxy a
    have h2 := hx1 a
    simp only [backoffDelay] at hlt ⊢
    omega
  · intro a
    have h1 := hxy a
    simp only [backoffDelay]
    omega

/-- Witness for C6: the default policy (2 retries, base 300ms, cap 2000ms,
retry-everything) against a server that always answers 500 makes three
attempts and sleeps 300ms then 600ms. -/
theorem request_retry_backoff_witness :
    transportRequest defaultRetryPolicy
      (fun _ => (Except.error ⟨("HTTP 500"), some 500⟩ : Except McpError Nat)) =
      (Except.error ⟨("HTTP 500"), some 500⟩, [300, 600], 3) := by
  have h := request_retry_backoff defaultRetryPolicy
    (fun _ => (Except.error ⟨("HTTP 500"), some 500⟩ : Except McpError Nat))
    (fun _ => ⟨("HTTP 500"), some 500⟩) (by decide) (fun _ _ => rfl) (fun _ _ => rfl)
  rw [h.1]
  decide

/-! ## Claim C1 -/

/-- Claim C1 counterexample.  `HttpTransport` has no generation counter, so
nothing discards the response of a superseded `initialize`.  Concrete
interleaving: call A starts (clears session state), call B starts (clears
again, superseding A), B's response arrives and commits session `sess-B`,
then A's late response arrives.  The claim says A's outcome is discarded
without mutating session state; in the code it overwrites the state with
`sess-A`, so the post-response state differs from the pre-response state. -/
theorem transport_init_commit_counterexample :
    initCommitResponse
        (initCommitResponse (initAttemptClear (initAttemptClear ⟨none, none⟩))
          (some ("sess-B")) (some ("2025-03-26")))
        (some ("sess-A")) (some ("2024-11-05")) ≠
      initCommitResponse (initAttemptClear (initAttemptClear ⟨none, none⟩))
        (some ("sess-B")) (some ("2025-03-26")) := by
  decide

/-- Claim C1 (amended): when an `initialize` response arrives, the session id
taken from the response header and the negotiated protocol version taken from
the decoded result (default `2024-11-05`) are committed to the transport's
session state unconditionally — the transport keeps no generation counter, so
a response from a superseded `initialize` is not discarded; generation-gated
discard of stale initialization outcomes exists only in the client
orchestrator's cached state. -/
theorem transport_init_commit_unconditional (st : SessionState) (hdr : String)
    (pv : Option String) :
    (initCommitResponse st (some hdr) pv =
      ⟨some hdr, some (pv.getD ("2024-11-05"))⟩) ∧
    (initCommitResponse st none pv =
      ⟨st.sessionId, some (pv.getD ("2024-11-05"))⟩) := by
  obtain ⟨sid, pver⟩ := st
  exact ⟨rfl, rfl⟩

/-! ## Claim C2 -/

/-- Claim C2 counterexample: `close` on an active session whose DELETE
answers 500 does not swallow the failure — the error is rethrown to the
caller, refuting "logged and not propagated". -/
theorem transport_close_counterexample :
    ¬((transportClose ⟨some ("sess-1"), some ("2024-11-05")⟩
        (CloseNetOutcome.response 500)).outcome = Except.ok ()) := by
  decide

/-- Claim C2 (amended): for `close` with an active session, a failure of the
session-termination request is logged AND rethrown to the caller, while
`sessionId` and `protocolVersion` are cleared regardless of the termination
outcome (and on success the call returns normally). -/
theorem transport_close_logs_and_rethrows (st : SessionState) (s : String)
    (hs : st.sessionId = some s) (net : CloseNetOutcome) :
    ((transportClose st net).state = ⟨none, none⟩) ∧
    (closeTerminationFailed net = true →
      (∃ e, (transportClose st net).outcome = Except.error e) ∧
      (transportClose st net).warnLogged = true) ∧
    (closeTerminationFailed net = false →
      (transportClose st net).outcome = Except.ok ()) := by
  obtain ⟨sid, pver⟩ := st
  simp only at hs
  subst hs
  cases net with
  | response status =>
    by_cases hc : httpStatusOk status = false ∧ status ≠ 404
    · have hf : closeTerminationFailed (CloseNetOutcome.response status) = true := by
        simp [closeTerminationFailed, hc.1, hc.2]
      simp [transportClose, hc, hf]
    · have hf : closeTerminationFailed (CloseNetOutcome.response status) = false := by
        simp only [closeTerminationFailed]
        cases hok : httpStatusOk status with
        | false =>
          have h404 : status = 404 := by
            by_contra hne
            exact hc ⟨hok, hne⟩
          subst h404
          simp
        | true => simp
      simp [transportClose, hc, hf]
  | networkFailure e =>
    simp [transportClose, closeTerminationFailed]

/-- Witness for C2 (amended) at a concrete input: active session, DELETE
answering 500 — state cleared, warning logged, error rethrown. -/
theorem transport_close_logs_and_rethrows_witness :
    ((transportClose ⟨some ("sess-1"), some ("2024-11-05")⟩
        (CloseNetOutcome.response 500)).state = ⟨none, none⟩) ∧
    (∃ e, (transportClose ⟨some ("sess-1"), some ("2024-11-05")⟩
        (CloseNetOutcome.response 500)).outcome = Except.error e) ∧
    ((transportClose ⟨some ("sess-1"), some ("2024-11-05")⟩
        (CloseNetOutcome.response 500)).warnLogged = true) := by
  have h := transport_close_logs_and_rethrows ⟨some ("sess-1"), some ("2024-11-05")⟩
    ("sess-1") rfl (CloseNetOutcome.response 500)
  exact ⟨h.1, (h.2.1 (by decide)).1, (h.2.1 (by decide)).2⟩

/-! ## Claim C9 -/

/-- Claim C9 counterexample: a file carrying both in-memory bytes and a uri
violates the claim's "exactly one must be present", yet `upload` raises no
MissingFileData error — the `if (file.data)` branch wins and the bytes are
used. -/
theorem upload_both_present_counterexample :
    (buildFilePart ⟨("a.txt"), some ("text/plain"), some ("file:///a.txt"), some [1, 2]⟩ =
      Except.ok (FilePart.fromData [1, 2] ("a.txt"))) ∧
    ¬(buildFilePart ⟨("a.txt"), some ("text/plain"), some ("file:///a.txt"), some [1, 2]⟩ =
      Except.error missingFileDataError) := by
  decide

/-- Claim C9 (amended): `upload` raises MissingFileData — before sending any
request — exactly when the file carries neither in-memory bytes nor a uri;
when bytes are present they are used (even if a uri is also present), and a
uri is used only when bytes are absent. -/
theorem upload_file_part_check (f : FileLike) (net : FilePart → Except McpError String) :
    (f.data = none → f.uri = none →
      uploadSend f net = (Except.error missingFileDataError, false)) ∧
    (∀ d, f.data = some d →
      uploadSend f net = (net (FilePart.fromData d f.name), true)) ∧
    (∀ u, f.data = none → f.uri = some u →
      uploadSend f net = (net (FilePart.fromUri u f.name f.type), true)) := by
  refine ⟨?_, ?_, ?_⟩
  · intro hd hu
    simp [uploadSend, buildFilePart, hd, hu]
  · intro d hd
    simp [uploadSend, buildFilePart, hd]
  · intro u hd hu
    simp [uploadSend, buildFilePart, hd, hu]

/-- Witness for C9 (amended): a file with neither bytes nor uri raises
MissingFileData and no request is sent. -/
theorem upload_file_part_check_witness :
    uploadSend ⟨("a.txt"), none, none, none⟩ (fun _ => Except.ok ("done")) =
      (Except.error missingFileDataError, false) :=
  (upload_file_part_check ⟨("a.txt"), none, none, none⟩
    (fun _ => Except.ok ("done"))).1 rfl rfl

/-! ## Claim C10 -/

theorem sseSingle_eq_head_of_stream {α : Type} (decode : List Char → α) :
    ∀ (chunks : List (List Char)) (buf : List Char),
      sseSingleFromChunks decode chunks buf =
        (match sseStreamFromChunks decode chunks buf with
         | [] => Except.error noDataError
         | d :: _ => Except.ok d) := by
  intro chunks
  induction chunks with
  | nil => intro buf; rfl
  | cons c cs ih =>
    intro buf
    simp only [sseSingleFromChunks, sseStreamFromChunks]
    cases h : ((splitCrlf (buf ++ c)).dropLast).filterMap dataLinePayload with
    | nil => simp [h, ih]
    | cons d ds => simp [h]

/-- Claim C10 counterexample: with `TextDecoder` unavailable (the same holds
with a missing body) the single-result mode does not fail with a
StreamUnsupported error as the claim states: it falls back to
`response.text()` and decodes the data line found there. -/
theorem sse_single_mode_counterexample :
    (parseSseResponse ⟨false⟩ (fun s => s)
        ⟨some [("data: hello\n").toList], ("data: hello\n").toList⟩ =
      Except.ok (("hello").toList)) ∧
    ¬(parseSseResponse ⟨false⟩ (fun s => s)
        ⟨some [("data: hello\n").toList], ("data: hello\n").toList⟩ =
        Except.error streamUnsupportedError ∨
      parseSseResponse ⟨false⟩ (fun s => s)
        ⟨some [("data: hello\n").toList], ("data: hello\n").toList⟩ =
        Except.error textDecoderUnavailableError) := by
  decide

/-- Claim C10 (amended): the lazy-sequence mode (`stream`) fails with the
StreamUnsupported errors when the response has no readable body or
`TextDecoder` is unavailable; in those situations the single-result mode
instead falls back to scanning the full `response.text()`, and it fails with
NoDataInStream when that text holds no valid data line; in its incremental
path, reaching end of stream with no valid complete data line likewise fails
with NoDataInStream. -/
theorem sse_failure_modes {α : Type} (rt : SseRuntime) (decode : List Char → α)
    (resp : SseResponse) :
    (resp.bodyChunks = none →
      parseSseStream rt decode resp = Except.error streamUnsupportedError) ∧
    (∀ chunks, resp.bodyChunks = some chunks → rt.textDecoderAvailable = false →
      parseSseStream rt decode resp = Except.error textDecoderUnavailableError) ∧
    (resp.bodyChunks = none ∨ rt.textDecoderAvailable = false →
      parseSseResponse rt decode resp = decodeSseText decode resp.text) ∧
    ((splitCrlf resp.text).filterMap dataLinePayload = [] →
      decodeSseText decode resp.text = Except.error noDataError) ∧
    (∀ chunks, resp.bodyChunks = some chunks →
      sseStreamFromChunks decode chunks [] = [] →
      parseSseResponse rt decode resp = Except.error noDataError ∨
        parseSseResponse rt decode resp = decodeSseText decode resp.text) := by
  refine ⟨?_, ?_, ?_, ?_, ?_⟩
  · intro h
    simp [parseSseStream, h]
  · intro chunks hc hd
    simp [parseSseStream, hc, hd]
  · intro h
    cases h with
    | inl h => simp [parseSseResponse, h]
    | inr h =>
      cases hb : resp.bodyChunks with
      | none => simp [parseSseResponse, hb]
      | some chunks => simp [parseSseResponse, hb, h]
  · intro h
    simp [decodeSseText, h]
  · intro chunks hc hempty
    cases hd : rt.textDecoderAvailable with
    | false =>
      right
      simp [parseSseResponse, hc, hd]
    | true =>
      left
      simp only [parseSseResponse, hc, hd]
      rw [sseSingle_eq_head_of_stream decode chunks [], hempty]
      simp

/-- Witness for C10 (amended) at concrete inputs: a missing body fails the
stream mode; an unavailable decoder fails the stream mode; the single-result
fallback scans the text; a text with no data line gives NoDataInStream; an
incremental run whose chunks hold no complete valid data line gives
NoDataInStream. -/
theorem sse_failure_modes_witness :
    (parseSseStream ⟨true⟩ (fun s => s) ⟨none, ("data: x\n").toList⟩ =
      Except.error streamUnsupportedError) ∧
    (parseSseStream ⟨false⟩ (fun s => s)
        ⟨some [("data: x\n").toList], ("data: x\n").toList⟩ =
      Except.error textDecoderUnavailableError) ∧
    (parseSseResponse ⟨true⟩ (fun s => s) ⟨none, ("ping\n").toList⟩ =
      decodeSseText (fun s => s) (("ping\n").toList)) ∧
    (decodeSseText (fun s => s) (("ping\n").toList) = Except.error noDataError) ∧
    (parseSseResponse ⟨true⟩ (fun s => s)
        ⟨some [("data: x").toList], ("data: x").toList⟩ =
      Except.error noDataError ∨
     parseSseResponse ⟨true⟩ (fun s => s)
        ⟨some [("data: x").toList], ("data: x").toList⟩ =
      decodeSseText (fun s => s) (("data: x").toList)) := by
  refine ⟨?_, ?_, ?_, ?_, ?_⟩
  · exact (sse_failure_modes ⟨true⟩ (fun s => s) ⟨none, ("data: x\n").toList⟩).1 rfl
  · exact (sse_failure_modes ⟨false⟩ (fun s => s)
      ⟨some [("data: x\n").toList], ("data: x\n").toList⟩).2.1
      (("data: x\n").toList :: []) rfl rfl
  · exact (sse_failure_modes ⟨true⟩ (fun s => s) ⟨none, ("ping\n").toList⟩).2.2.1
      (Or.inl rfl)
  · exact (sse_failure_modes ⟨true⟩ (fun s => s) ⟨none, ("ping\n").toList⟩).2.2.2.1
      (by decide)
  · exact (sse_failure_modes ⟨true⟩ (fun s => s)
      ⟨some [("data: x").toList], ("data: x").toList⟩).2.2.2.2
      (("data: x").toList :: []) rfl (by decide)
